import Mathlib

/-!
# Verification of the pylxpweb Modbus transport layer

Shallow embedding of `pylxpweb/transports/_modbus_base.py`
(`BaseModbusTransport`) and of the scanner IP-range parser, with theorems
settling the specification claims about retry policy, identity reads, write
coalescing, battery/energy error handling, request chunking and adaptive
inter-group pacing.
-/

namespace Pylxpweb

/-- Underlying exceptions the pymodbus client layer can raise during a read,
as distinguished by the `except` clauses of
`BaseModbusTransport._read_registers`: `ModbusIOException` (whose message may
or may not contain "timeout"), `TimeoutError`, and `OSError`. -/
inductive PyExc where
  | modbusIOErr (isTimeout : Bool)
  | timeoutExc
  | osError
deriving DecidableEq

/-- Classified transport errors (`TransportReadError` / `TransportTimeoutError`)
carrying the `__cause__` exception when one was attached. -/
inductive TransportError where
  | readError (cause : Option PyExc)
  | timeoutError (cause : Option PyExc)
deriving DecidableEq

/-- The `__cause__` recorded on a classified transport error. -/
def TransportError.cause : TransportError → Option PyExc
  | .readError c => c
  | .timeoutError c => c

/-- Outcome of one wire attempt inside `_read_registers`: a successful
response carrying registers, a Modbus exception response (`result.isError()`
true), a response without a `registers` attribute, or a raised exception. -/
inductive ReadAttempt where
  | success (values : List Nat)
  | errorResponse
  | noRegisters
  | exc (e : PyExc)
deriving DecidableEq

/-- Whether the attempt returned values. -/
def ReadAttempt.isSuccess : ReadAttempt → Bool
  | .success _ => true
  | _ => false

/-- Error classification performed by the `except` arms of `_read_registers`:
a Modbus exception response and a registers-less response raise
`TransportReadError` with no cause (caught again by the
`except (TransportReadError, TransportTimeoutError)` arm);
`ModbusIOException` maps to a timeout error or a read error depending on its
message, `TimeoutError` to a timeout error, `OSError` to a read error, each
with the original exception attached as cause. -/
def classifyFailure : ReadAttempt → TransportError
  | .success _ => .readError none
  | .errorResponse => .readError none
  | .noRegisters => .readError none
  | .exc (.modbusIOErr true) => .timeoutError (some (.modbusIOErr true))
  | .exc (.modbusIOErr false) => .readError (some (.modbusIOErr false))
  | .exc .timeoutExc => .timeoutError (some .timeoutExc)
  | .exc .osError => .readError (some .osError)

/-- Observable trace of one `_read_registers` call: its result, the number of
wire requests issued, the backoff sleeps performed between attempts, and the
final value of `_last_read_retried`. -/
structure ReadTrace where
  result : Except TransportError (List Nat)
  requests : Nat
  sleeps : List Rat
  retried : Bool

/-- The attempt loop of `BaseModbusTransport._read_registers`:
`for attempt in range(retries + 1)`, returning the first successful response;
on any failure the classified error becomes `last_err` and, when attempts
remain, `_last_read_retried` is set and the loop sleeps
`retry_delay * 2 ** attempt` before the next attempt; after the loop the last
error is raised.  `fuel` counts the remaining iterations. -/
def readLoop (script : Nat → ReadAttempt) (retryDelay : Rat) (retries : Nat) :
    Nat → Nat → ReadTrace
  | _, 0 =>
    { result := .error (.readError none), requests := 0, sleeps := [], retried := false }
  | attempt, fuel + 1 =>
    match script attempt with
    | .success vs =>
      { result := .ok vs, requests := 1, sleeps := [], retried := false }
    | _ =>
      if attempt < retries then
        let rest := readLoop script retryDelay retries (attempt + 1) fuel
        { result := rest.result
          requests := rest.requests + 1
          sleeps := retryDelay * 2 ^ attempt :: rest.sleeps
          retried := true }
      else
        { result := .error (classifyFailure (script attempt))
          requests := 1
          sleeps := []
          retried := false }

/-- `BaseModbusTransport._read_registers`: runs the attempt loop with
`retries + 1` iterations starting at attempt 0. -/
def readRegisters (script : Nat → ReadAttempt) (retryDelay : Rat) (retries : Nat) :
    ReadTrace :=
  readLoop script retryDelay retries 0 (retries + 1)

/-- The `count` field placed on every wire request by `_read_registers`:
`count=min(count, 40)`. -/
def wireCount (count : Nat) : Nat := min count 40

theorem readLoop_all_fail (script : Nat → ReadAttempt) (d : Rat) (R : Nat) :
    ∀ fuel attempt, fuel = R + 1 - attempt → attempt ≤ R →
    (∀ i, attempt ≤ i → i ≤ R → (script i).isSuccess = false) →
    readLoop script d R attempt fuel =
      { result := .error (classifyFailure (script R))
        requests := fuel
        sleeps := (List.range' attempt (R - attempt)).map (fun i => d * 2 ^ i)
        retried := decide (attempt < R) } := by
  intro fuel
  induction fuel with
  | zero =>
    intro attempt hfuel hle _
    omega
  | succ n ih =>
    intro attempt hfuel hle hfail
    have hs : (script attempt).isSuccess = false := hfail attempt le_rfl hle
    rcases hcase : script attempt with vs | _ | _ | e
    · rw [hcase] at hs; simp [ReadAttempt.isSuccess] at hs
    all_goals {
      rw [readLoop, hcase]
      by_cases hlt : attempt < R
      · simp only [if_pos hlt]
        rw [ih (attempt + 1) (by omega) (by omega)
          (fun i h1 h2 => hfail i (by omega) h2)]
        have hrange : List.range' attempt (R - attempt) =
            attempt :: List.range' (attempt + 1) (R - (attempt + 1)) := by
          have : R - attempt = (R - (attempt + 1)) + 1 := by omega
          rw [this, List.range'_succ]
        simp [hrange, hlt, hfuel]
      · have heq : attempt = R := by omega
        simp only [if_neg hlt]
        subst heq
        simp [hcase, hlt]
        omega
    }

/-- C1 (counterexample): the claim states that a Modbus exception response
from the device is never retried.  On the code, the `TransportReadError`
raised when `result.isError()` is true is caught by the
`except (TransportReadError, TransportTimeoutError)` arm and retried like any
transient failure: with the default `retries = 2`, a device that persistently
answers with a Modbus exception response receives 3 wire requests and the
retried flag is set. -/
theorem C1_counterexample :
    (readRegisters (fun _ => ReadAttempt.errorResponse) (1/2) 2).requests = 3 ∧
    (readRegisters (fun _ => ReadAttempt.errorResponse) (1/2) 2).retried = true := by
  constructor <;> rfl

/-- C1 (amended): every failing attempt class — timeout, I/O error, and a
Modbus exception response alike — is retried, up to `retries` additional
attempts (default 2) with exponential backoff `retry_delay * 2 ^ attempt`
between attempts; when all attempts fail only the error classified from the
last attempt is surfaced, and for exception-backed failures its cause is
preserved. -/
theorem C1_theorem (script : Nat → ReadAttempt) (d : Rat) (R : Nat)
    (hfail : ∀ i < R + 1, (script i).isSuccess = false) :
    (readRegisters script d R).result = .error (classifyFailure (script R)) ∧
    (readRegisters script d R).requests = R + 1 ∧
    (readRegisters script d R).sleeps = (List.range R).map (fun i => d * 2 ^ i) ∧
    (readRegisters script d R).retried = decide (0 < R) ∧
    ∀ e, script R = .exc e → (classifyFailure (script R)).cause = some e := by
  have h := readLoop_all_fail script d R (R + 1) 0 (by omega) (Nat.zero_le R)
    (fun i _ h2 => hfail i (by omega))
  rw [readRegisters, h]
  refine ⟨rfl, rfl, ?_, rfl, ?_⟩
  · simp [List.range_eq_range']
  · intro e he
    rw [he]
    cases e with
    | modbusIOErr b => cases b <;> rfl
    | timeoutExc => rfl
    | osError => rfl

/-- Witness for C1: all three attempts of a persistently failing `OSError`
script fail, and `_read_registers` issues exactly 3 requests. -/
theorem C1_theorem_witness :
    (∀ i < 2 + 1, ((fun _ => ReadAttempt.exc PyExc.osError) i).isSuccess = false) ∧
    (readRegisters (fun _ => ReadAttempt.exc PyExc.osError) (1/2) 2).requests = 2 + 1 :=
  ⟨by decide, (C1_theorem (fun _ => ReadAttempt.exc PyExc.osError) (1/2) 2 (by decide)).2.1⟩

/-- A Modbus write frame: `write_register` (FC6, single register) or
`write_registers` (FC16, multiple registers), as issued by
`BaseModbusTransport._write_holding_registers` depending on
`len(values) == 1`. -/
inductive WriteFrame where
  | fc6 (address : Nat) (value : Nat)
  | fc16 (address : Nat) (values : List Nat)
deriving DecidableEq

/-- Starting address of a write frame. -/
def WriteFrame.address : WriteFrame → Nat
  | .fc6 a _ => a
  | .fc16 a _ => a

/-- The grouping loop of `BaseModbusTransport.write_parameters`: walks the
sorted `(address, value)` pairs keeping the current group's start and values;
a pair extends the group when `address == current_start + len(current_values)`
and otherwise flushes the group; at the end a pending non-empty group is
flushed. -/
def groupLoop : List (Nat × Nat) → Option Nat → List Nat → List (Nat × List Nat)
  | [], none, _ => []
  | [], some s, vals => if vals.isEmpty then [] else [(s, vals)]
  | (a, v) :: rest, none, _ => groupLoop rest (some a) [v]
  | (a, v) :: rest, some s, vals =>
    if a = s + vals.length then groupLoop rest (some s) (vals ++ [v])
    else (s, vals) :: groupLoop rest (some a) [v]

/-- `BaseModbusTransport.write_parameters` applied to an already-sorted
parameter list: groups consecutive addresses and writes each group through
`_write_holding_registers`, which selects FC6 for a single value and FC16
otherwise.  Returns the frames issued in order. -/
def writeParametersFrames (sortedParams : List (Nat × Nat)) : List WriteFrame :=
  (groupLoop sortedParams none []).map fun g =>
    match g.2 with
    | [v] => .fc6 g.1 v
    | vs => .fc16 g.1 vs

/-- `write_parameters` returns `True` after all group writes succeed (it is
exception-based: a failure raises instead of returning). -/
def writeParametersResult (_sortedParams : List (Nat × Nat)) : Bool := true

/-- Maximal runs of consecutive addresses in a sorted `(address, value)` list,
written from the spec side: a pair starts a new run unless the following run
starts exactly one address above it. -/
def specRuns : List (Nat × Nat) → List (Nat × List Nat)
  | [] => []
  | (a, v) :: rest =>
    match specRuns rest with
    | [] => [(a, [v])]
    | (s, vals) :: more =>
      if s = a + 1 then (a, v :: vals) :: more
      else (a, [v]) :: (s, vals) :: more

/-- Number of maximal runs of consecutive values in an address list. -/
def countRuns : List Nat → Nat
  | [] => 0
  | [_] => 1
  | a :: b :: rest => (if b = a + 1 then 0 else 1) + countRuns (b :: rest)

/-- Re-expansion of a run `(start, values)` into `(address, value)` pairs at
consecutive addresses. -/
def expandRun (s : Nat) : List Nat → List (Nat × Nat)
  | [] => []
  | v :: vals => (s, v) :: expandRun (s + 1) vals

theorem groupLoop_eq_specRuns :
    ∀ (ps : List (Nat × Nat)) (s : Nat) (vals : List Nat), vals ≠ [] →
    groupLoop ps (some s) vals =
      match specRuns ps with
      | [] => [(s, vals)]
      | (s', vals') :: more =>
        if s' = s + vals.length then (s, vals ++ vals') :: more
        else (s, vals) :: (s', vals') :: more := by
  intro ps
  induction ps with
  | nil =>
    intro s vals hne
    rcases vals with _ | ⟨v, vs⟩
    · exact absurd rfl hne
    · simp [groupLoop, specRuns]
  | cons p rest ih =>
    intro s vals hne
    obtain ⟨a, v⟩ := p
    rw [groupLoop]
    by_cases hext : a = s + vals.length
    · rw [if_pos hext, ih s (vals ++ [v]) (by simp), specRuns]
      rcases hsr : specRuns rest with _ | ⟨⟨s', vals'⟩, more⟩
      · simp [hext]
      · by_cases h1 : s' = a + 1
        · have hc : s' = s + (vals.length + 1) := by omega
          simp [h1, hext, hc]
          omega
        · have h1' : ¬ s' = s + vals.length + 1 := by omega
          have hc : ¬ s' = s + (vals.length + 1) := by omega
          simp [hext, h1', hc]
    · rw [if_neg hext, ih a [v] (by simp), specRuns]
      rcases hsr : specRuns rest with _ | ⟨⟨s', vals'⟩, more⟩
      · simp [hext]
      · by_cases h1 : s' = a + 1
        · simp [h1, hext]
        · simp [h1, hext]

/-- The head of `specRuns` on a non-empty list starts at the first address. -/
theorem specRuns_head (a v : Nat) (rest : List (Nat × Nat)) :
    ∃ vs more, specRuns ((a, v) :: rest) = (a, vs) :: more := by
  rw [specRuns]
  rcases specRuns rest with _ | ⟨⟨s', vals'⟩, more⟩
  · exact ⟨[v], [], rfl⟩
  · by_cases h1 : s' = a + 1
    · exact ⟨v :: vals', more, by simp [h1]⟩
    · exact ⟨[v], (s', vals') :: more, by simp [h1]⟩

/-- `specRuns` produces one group per maximal run of consecutive addresses. -/
theorem specRuns_length (ps : List (Nat × Nat)) :
    (specRuns ps).length = countRuns (ps.map Prod.fst) := by
  induction ps with
  | nil => rfl
  | cons p rest ih =>
    obtain ⟨a, v⟩ := p
    rcases rest with _ | ⟨⟨b, w⟩, rest'⟩
    · rfl
    · obtain ⟨vs, more, hh⟩ := specRuns_head b w rest'
      have ih' : more.length + 1 = countRuns (b :: rest'.map Prod.fst) := by
        simpa [hh] using ih
      rw [specRuns, hh]
      by_cases h1 : b = a + 1
      · simp only [if_pos h1, List.length_cons, List.map_cons, countRuns, if_pos h1]
        omega
      · simp only [if_neg h1, List.length_cons, List.map_cons, countRuns, if_neg h1]
        omega

/-- Each group of `specRuns` re-expands to exactly the pairs it was built
from, at consecutive addresses. -/
theorem specRuns_expand (ps : List (Nat × Nat)) :
    (specRuns ps).flatMap (fun g => expandRun g.1 g.2) = ps := by
  induction ps with
  | nil => rfl
  | cons p rest ih =>
    obtain ⟨a, v⟩ := p
    rw [specRuns]
    rcases hsr : specRuns rest with _ | ⟨⟨s', vals'⟩, more⟩
    · rw [hsr] at ih
      simp only [List.flatMap_nil] at ih
      simp [expandRun, ← ih]
    · rw [hsr] at ih
      by_cases h1 : s' = a + 1
      · simp only [if_pos h1]
        rw [← ih]
        simp only [List.flatMap_cons]
        subst h1
        simp [expandRun]
      · simp only [if_neg h1]
        rw [← ih]
        simp only [List.flatMap_cons]
        simp [expandRun]

/-- The grouping loop started from the initial state
(`current_start = None`, `current_values = []`) computes exactly the maximal
runs of consecutive addresses. -/
theorem groupLoop_none (ps : List (Nat × Nat)) :
    groupLoop ps none [] = specRuns ps := by
  rcases ps with _ | ⟨⟨a, v⟩, rest⟩
  · rfl
  · rw [groupLoop, groupLoop_eq_specRuns rest a [v] (by simp), specRuns]
    rcases specRuns rest with _ | ⟨⟨s', vals'⟩, more⟩
    · rfl
    · by_cases h1 : s' = a + 1 <;> simp [h1]

/-- Each frame issued by `write_parameters` starts at its group's start. -/
theorem frames_address (ps : List (Nat × Nat)) :
    (writeParametersFrames ps).map WriteFrame.address = (specRuns ps).map Prod.fst := by
  rw [writeParametersFrames, groupLoop_none, List.map_map]
  refine List.map_congr_left ?_
  intro g _
  rcases g with ⟨s, vals⟩
  rcases vals with _ | ⟨v, vs⟩
  · rfl
  · rcases vs with _ | ⟨v2, vs'⟩ <;> rfl

/-- The run starts are a sublist of the written addresses. -/
theorem specRuns_starts_sublist (ps : List (Nat × Nat)) :
    ((specRuns ps).map Prod.fst).Sublist (ps.map Prod.fst) := by
  induction ps with
  | nil => exact List.Sublist.refl []
  | cons p rest ih =>
    obtain ⟨a, v⟩ := p
    rw [specRuns]
    rcases hsr : specRuns rest with _ | ⟨⟨s', vals'⟩, more⟩
    · simp
    · rw [hsr] at ih
      by_cases h1 : s' = a + 1
      · simp only [if_pos h1, List.map_cons]
        exact List.Sublist.cons₂ a (List.sublist_of_cons_sublist (by simpa using ih))
      · simp only [if_neg h1, List.map_cons]
        exact List.Sublist.cons₂ a (by simpa using ih)

/-- On a strictly address-sorted parameter list the run starts are strictly
increasing. -/
theorem specRuns_starts_sorted (ps : List (Nat × Nat))
    (hs : List.Chain' (fun p q : Nat × Nat => p.1 < q.1) ps) :
    List.Chain' (fun m n : Nat => m < n) ((specRuns ps).map Prod.fst) := by
  have hmap : List.Chain' (fun m n : Nat => m < n) (ps.map Prod.fst) :=
    (List.chain'_map Prod.fst).mpr hs
  rw [List.chain'_iff_pairwise] at hmap ⊢
  exact hmap.sublist (specRuns_starts_sublist ps)

/-- C3: on a non-empty parameter map whose sorted addresses form `k` maximal
runs of consecutive addresses, `write_parameters` issues exactly `k` write
frames, one per run in ascending address order; a singleton run is written
with FC6 and a longer run with one FC16 carrying the run's values in address
order (the runs re-expand to exactly the sorted parameter pairs). -/
theorem C3_theorem (ps : List (Nat × Nat)) (_hne : ps ≠ [])
    (hsorted : List.Chain' (fun p q : Nat × Nat => p.1 < q.1) ps) :
    (writeParametersFrames ps).length = countRuns (ps.map Prod.fst) ∧
    List.Chain' (fun m n : Nat => m < n) ((writeParametersFrames ps).map WriteFrame.address) ∧
    writeParametersFrames ps = (specRuns ps).map (fun g =>
      match g.2 with
      | [v] => WriteFrame.fc6 g.1 v
      | vs => WriteFrame.fc16 g.1 vs) ∧
    (specRuns ps).flatMap (fun g => expandRun g.1 g.2) = ps := by
  refine ⟨?_, ?_, ?_, specRuns_expand ps⟩
  · rw [writeParametersFrames, groupLoop_none, List.length_map, specRuns_length]
  · rw [frames_address]
    exact specRuns_starts_sorted ps hsorted
  · rw [writeParametersFrames, groupLoop_none]

/-- Witness for C3, the spec's coalescing scenario:
`write_parameters({10:1, 11:2, 12:3, 20:9})` emits two frames, FC16 at
address 10 with payload `[1,2,3]` then FC6 at address 20 with value 9. -/
theorem C3_theorem_witness :
    ([((10 : Nat), (1 : Nat)), (11, 2), (12, 3), (20, 9)] ≠ ([] : List (Nat × Nat))) ∧
    List.Chain' (fun p q : Nat × Nat => p.1 < q.1) [(10, 1), (11, 2), (12, 3), (20, 9)] ∧
    (writeParametersFrames [(10, 1), (11, 2), (12, 3), (20, 9)]).length =
      countRuns ([((10 : Nat), (1 : Nat)), (11, 2), (12, 3), (20, 9)].map Prod.fst) ∧
    writeParametersFrames [(10, 1), (11, 2), (12, 3), (20, 9)] =
      [WriteFrame.fc16 10 [1, 2, 3], WriteFrame.fc6 20 9] :=
  ⟨by decide, by simp [List.chain'_cons],
    (C3_theorem _ (by decide) (by simp [List.chain'_cons])).1, by decide⟩

/-- C10: `write_parameters` applied to an empty parameter map issues zero
write frames (the grouping loop never starts a group, so no
`_write_holding_registers` call happens and no transport state is touched)
and returns True. -/
theorem C10_theorem :
    writeParametersFrames [] = [] ∧ writeParametersResult [] = true :=
  ⟨rfl, rfl⟩

/-- The chunking loop of `BaseModbusTransport.read_parameters` (and of the
individual-battery read in `read_battery`): while registers remain, issue a
read of `min(remaining, 40)` registers and advance. Returns the
`(address, count)` pairs of the issued requests, in order. -/
def chunksFrom (addr : Nat) (remaining : Nat) : List (Nat × Nat) :=
  if _h : remaining = 0 then []
  else
    let c := min remaining 40
    (addr, c) :: chunksFrom (addr + c) (remaining - c)
termination_by remaining
decreasing_by
  have : 0 < min remaining 40 := by omega
  omega

/-- `read_parameters(start_address, count)` issues exactly these holding
register reads. -/
def readParametersRequests (startAddress count : Nat) : List (Nat × Nat) :=
  chunksFrom startAddress count

theorem chunksFrom_le_40 (addr remaining : Nat) :
    ∀ p ∈ chunksFrom addr remaining, p.2 ≤ 40 := by
  induction addr, remaining using chunksFrom.induct with
  | case1 a =>
    rw [chunksFrom, dif_pos rfl]
    intro p hp
    simp at hp
  | case2 a r h c ih =>
    rw [chunksFrom, dif_neg h]
    intro p hp
    rcases List.mem_cons.mp hp with h1 | h2
    · subst h1
      simp only
      omega
    · exact ih p h2

theorem chunksFrom_cover (addr remaining : Nat) :
    (chunksFrom addr remaining).flatMap (fun p => List.range' p.1 p.2) =
      List.range' addr remaining := by
  induction addr, remaining using chunksFrom.induct with
  | case1 a =>
    rw [chunksFrom, dif_pos rfl]
    rfl
  | case2 a r h c ih =>
    rw [chunksFrom, dif_neg h]
    simp only [List.flatMap_cons]
    rw [ih, List.range'_append_1]
    congr 1
    omega

/-- C6: every wire read request carries at most 40 words — `_read_registers`
clamps the per-request count to `min(count, 40)`, and `read_parameters`
splits its window into successive requests of at most 40 registers whose
windows concatenate to exactly the addresses
`start_address .. start_address + count - 1`. -/
theorem C6_theorem (count startAddress : Nat) :
    wireCount count ≤ 40 ∧
    (∀ p ∈ readParametersRequests startAddress count, p.2 ≤ 40 ∧ wireCount p.2 = p.2) ∧
    (readParametersRequests startAddress count).flatMap (fun p => List.range' p.1 p.2) =
      List.range' startAddress count := by
  refine ⟨Nat.min_le_right count 40, ?_, chunksFrom_cover startAddress count⟩
  intro p hp
  have h := chunksFrom_le_40 startAddress count p hp
  exact ⟨h, by simp [wireCount]; omega⟩

/-- The inter-group pacing loop of
`BaseModbusTransport._read_register_groups`: starting from
`current_delay = inter_register_delay`, after each group whose read set
`_last_read_retried` the delay is doubled and capped at 1.0 s, and the
(possibly updated) delay is slept between successive groups — never after
the last one.  `flags` records, per group in order, whether its read
retried; the returned list is the sequence of sleeps performed. -/
def interGroupSleeps : List Bool → Rat → List Rat
  | [], _ => []
  | f :: rest, d =>
    let d2 := if f then min (d * 2) 1 else d
    if rest.isEmpty then [] else d2 :: interGroupSleeps rest d2

/-- The delay update applied after one group read
(`current_delay = min(current_delay * 2, 1.0)` when the last read retried,
unchanged otherwise). -/
def delayStep (d : Rat) (retriedFlag : Bool) : Rat :=
  if retriedFlag then min (d * 2) 1 else d

/-- Spec-side description of the sleep sequence: the sleep after group `i`
(for `i` ranging over all groups but the last) is the initial delay folded
through the update over groups `0..i`. -/
def specSleeps (flags : List Bool) (d0 : Rat) : List Rat :=
  (List.range (flags.length - 1)).map (fun i => (flags.take (i + 1)).foldl delayStep d0)

theorem interGroupSleeps_eq_specSleeps :
    ∀ (flags : List Bool) (d0 : Rat), interGroupSleeps flags d0 = specSleeps flags d0 := by
  intro flags
  induction flags with
  | nil =>
    intro d0
    rfl
  | cons f rest ih =>
    intro d0
    rw [interGroupSleeps]
    rcases rest with _ | ⟨g, rest2⟩
    · rfl
    · simp only [List.isEmpty_cons]
      rw [if_neg Bool.false_ne_true]
      have hd : (if f = true then min (d0 * 2) 1 else d0) = delayStep d0 f := rfl
      rw [hd, ih (delayStep d0 f)]
      simp only [specSleeps, List.length_cons, Nat.add_sub_cancel]
      rw [List.range_succ_eq_map]
      simp only [List.map_cons, List.map_map]
      congr 1

/-- C7: during a multi-group read the inter-group delay starts at the
configured `inter_register_delay`; after any group whose read required at
least one retry it is doubled (capped at 1.0 s) for the subsequent groups
of the same batch and otherwise left unchanged; the delay is slept between
successive groups and not after the last group, so a batch of `n` groups
performs exactly `n - 1` sleeps, the sleep following group `i` being the
initial delay folded through the doubling rule over groups `0..i`. -/
theorem C7_theorem (flags : List Bool) (d0 : Rat) :
    interGroupSleeps flags d0 = specSleeps flags d0 ∧
    (interGroupSleeps flags d0).length = flags.length - 1 ∧
    (∀ d, delayStep d true = min (d * 2) 1) ∧
    (∀ d, delayStep d false = d) := by
  refine ⟨interGroupSleeps_eq_specSleeps flags d0, ?_, fun d => rfl, fun d => rfl⟩
  rw [interGroupSleeps_eq_specSleeps flags d0]
  simp [specSleeps]

/-- A raw-register map (`dict[int, int]` in the source): address to value,
`none` for an absent address. -/
def RawRegs := Nat → Option Nat

/-- The empty register map. -/
def emptyRegs : RawRegs := fun _ => none

/-- `BaseModbusTransport._registers_from_values`: the address-to-value map of
one contiguous read starting at `start`. -/
def registersFromValues (start : Nat) (values : List Nat) : RawRegs :=
  fun a =>
    if start ≤ a ∧ a < start + values.length then some (values.getD (a - start) 0)
    else none

/-- `dict.update`: entries of `new` override entries of `old`. -/
def updateRegs (old new : RawRegs) : RawRegs :=
  fun a => (new a).orElse (fun _ => old a)

/-- Outcome model of `_read_input_registers` calls: for each
`(address, count)` request, either the returned register values or the
classified transport error the read raised after its retries. -/
def ReadOracle := Nat → Nat → Except TransportError (List Nat)

/-- Modelled from the spec: the individual-battery constants of
`pylxpweb.transports.register_maps`, a module absent from the sources — per
the spec, individual battery-module data lives at base address 5000, 30
words per module, up to 10 modules. -/
def INDIVIDUAL_BATTERY_BASE_ADDRESS : Nat := 5000

/-- Modelled from the spec: words per battery module (see
`INDIVIDUAL_BATTERY_BASE_ADDRESS`). -/
def INDIVIDUAL_BATTERY_REGISTER_COUNT : Nat := 30

/-- Modelled from the spec: maximum number of battery modules (see
`INDIVIDUAL_BATTERY_BASE_ADDRESS`). -/
def INDIVIDUAL_BATTERY_MAX_COUNT : Nat := 10

/-- Decoded battery-bank record, at the granularity the claims need. -/
structure BatteryBankData where
  bankVoltage : Rat
  soc : Option Nat
  batteries : Nat
deriving DecidableEq

/-- Modelled from the spec: `BatteryBankData.from_modbus_registers` lives in
`pylxpweb.transports.data`, a module absent from the sources.  Per the spec,
a bank record is emitted only when the bank-voltage register (address 4,
scale ÷10) is above a small threshold of about 5 V; at or below it — in
particular when the register is absent or reads 0 — the decoder returns
`none`, meaning "no battery present" (distinct from a raised error).  SOC is
the low byte of the packed word at address 5, and the module count comes
from the optional extended map at 5000+. -/
def batteryBankFromRegisters (regs : RawRegs) (individual : Option RawRegs) :
    Option BatteryBankData :=
  let rawV := (regs 4).getD 0
  if rawV ≤ 50 then none
  else some
    { bankVoltage := (rawV : Rat) / 10
      soc := (regs 5).map (fun w => w % 256)
      batteries :=
        match individual with
        | none => 0
        | some ind =>
          (List.range INDIVIDUAL_BATTERY_MAX_COUNT).countP fun k =>
            (ind (INDIVIDUAL_BATTERY_BASE_ADDRESS +
              INDIVIDUAL_BATTERY_REGISTER_COUNT * k)).isSome }

/-- The `try` block of `read_battery` that reads runtime registers 0-127 in
two chunks of 64: a failing chunk aborts the block (so the second chunk is
not requested after the first fails), the exception is swallowed, and
whatever registers were merged before the failure are kept.  Returns the
issued `(address, count)` requests and the merged map. -/
def runtimePhase (oracle : ReadOracle) : List (Nat × Nat) × RawRegs :=
  match oracle 0 64 with
  | .error _ => ([(0, 64)], emptyRegs)
  | .ok v1 =>
    let regs1 := updateRegs emptyRegs (registersFromValues 0 v1)
    match oracle 64 64 with
    | .error _ => ([(0, 64), (64, 64)], regs1)
    | .ok v2 => ([(0, 64), (64, 64)], updateRegs regs1 (registersFromValues 64 v2))

/-- Worker for the individual-battery read loop, structurally recursive on a
fuel bound; the loop consumes at least one register per iteration, so any
`fuel ≥ remaining` reproduces the `while remaining > 0` loop of the
source. -/
def readIndividualLoopAux (oracle : ReadOracle) :
    Nat → Nat → Nat → RawRegs → List (Nat × Nat) × Option RawRegs
  | 0, _, _, acc => ([], some acc)
  | fuel + 1, addr, remaining, acc =>
    if remaining = 0 then ([], some acc)
    else
      let c := min remaining 40
      match oracle addr c with
      | .error _ => ([(addr, c)], none)
      | .ok vs =>
        let next := readIndividualLoopAux oracle fuel (addr + c) (remaining - c)
          (updateRegs acc (registersFromValues addr vs))
        ((addr, c) :: next.1, next.2)

/-- The individual-battery read loop of `read_battery`: chunks of at most 40
registers starting at 5000; a failing chunk discards the partial individual
map (`individual_registers = None`) while keeping the requests already
issued on the wire. -/
def readIndividualLoop (oracle : ReadOracle) (addr remaining : Nat) (acc : RawRegs) :
    List (Nat × Nat) × Option RawRegs :=
  readIndividualLoopAux oracle remaining addr remaining acc

/-- Observable trace of one `read_battery` call: the input-register requests
issued, the merged runtime register map, and the returned value. -/
structure BatteryTrace where
  reads : List (Nat × Nat)
  regs : RawRegs
  result : Option BatteryBankData

/-- `BaseModbusTransport.read_battery`: reads runtime registers 0-127 (both
chunks inside one `try` whose failure is swallowed), then — only when
`include_individual` is set and the battery-count register 96 is positive —
reads `min(count, 10) * 30` individual-battery registers from 5000 in chunks
of at most 40, and finally decodes the bank record; a total function, every
read failure being caught. -/
def readBattery (oracle : ReadOracle) (includeIndividual : Bool) : BatteryTrace :=
  let rt := runtimePhase oracle
  let batteryCount := (rt.2 96).getD 0
  let indiv :=
    if includeIndividual = true ∧ 0 < batteryCount then
      readIndividualLoop oracle INDIVIDUAL_BATTERY_BASE_ADDRESS
        (min batteryCount INDIVIDUAL_BATTERY_MAX_COUNT * INDIVIDUAL_BATTERY_REGISTER_COUNT)
        emptyRegs
    else ([], none)
  { reads := rt.1 ++ indiv.1
    regs := rt.2
    result := batteryBankFromRegisters rt.2 indiv.2 }

/-- An oracle whose every read succeeds with all-zero registers: the typical
register image of an inverter with no battery attached. -/
def allZeroOracle : ReadOracle := fun _ count => .ok (List.replicate count 0)

/-- An oracle on which the first runtime chunk read fails with a Modbus
exception response after its retries. -/
def c4Oracle : ReadOracle := fun addr count =>
  if addr = 64 then .ok ((List.replicate count 0).set 32 2)
  else .ok (List.replicate count 0)

theorem batteryBankFromRegisters_none (regs : RawRegs) (ind : Option RawRegs)
    (h : (regs 4).getD 0 ≤ 50) : batteryBankFromRegisters regs ind = none := by
  simp [batteryBankFromRegisters, h]

theorem runtimePhase_reads (oracle : ReadOracle) :
    ∀ p ∈ (runtimePhase oracle).1, p.1 + p.2 ≤ 5000 := by
  rw [runtimePhase]
  rcases oracle 0 64 with e | v1
  · intro p hp
    simp only [List.mem_singleton] at hp
    subst hp
    omega
  · rcases oracle 64 64 with e | v2 <;>
      { intro p hp
        simp only [List.mem_cons, List.mem_singleton, List.not_mem_nil, or_false] at hp
        rcases hp with h1 | h1 <;> subst h1 <;> omega }

/-- C4 (counterexample): the claim states that whenever the bank-voltage
register is below the no-battery threshold, `read_battery` returns `None`
and no read at address 5000+ is attempted.  On the code the 5000+ read is
gated on the battery-count register 96, not on the voltage: on a register
image with voltage register 4 reading 0 but register 96 reading 2,
`read_battery(include_individual=True)` does return `None`, yet it issues
the individual-battery request at address 5000. -/
theorem C4_counterexample :
    (readBattery c4Oracle true).result = none ∧
    (5000, 40) ∈ (readBattery c4Oracle true).reads := by
  constructor
  · rfl
  · decide

/-- C4 (amended): when the bank-voltage register is below the no-battery
threshold, `read_battery(include_individual=True)` returns `None` rather
than raising; the individual-battery range at 5000+ is read only when the
battery-count register 96 is positive, so in the typical no-battery state
where register 96 reads 0 every issued request stays strictly below address
5000. -/
theorem C4_theorem (oracle : ReadOracle) :
    (((readBattery oracle true).regs 4).getD 0 ≤ 50 →
      (readBattery oracle true).result = none) ∧
    (((readBattery oracle true).regs 96).getD 0 = 0 →
      ∀ p ∈ (readBattery oracle true).reads, p.1 + p.2 ≤ 5000) := by
  constructor
  · intro hv
    exact batteryBankFromRegisters_none _ _ hv
  · intro h96
    have h96' : ((runtimePhase oracle).2 96).getD 0 = 0 := h96
    have hreads : (readBattery oracle true).reads = (runtimePhase oracle).1 := by
      simp [readBattery, h96']
    rw [hreads]
    exact runtimePhase_reads oracle

/-- Witness for C4: on the all-zero register image the voltage and count
hypotheses hold, the result is `None` and no request reaches address 5000. -/
theorem C4_theorem_witness :
    (((readBattery allZeroOracle true).regs 4).getD 0 ≤ 50 ∧
      (readBattery allZeroOracle true).result = none) ∧
    (((readBattery allZeroOracle true).regs 96).getD 0 = 0 ∧
      ∀ p ∈ (readBattery allZeroOracle true).reads, p.1 + p.2 ≤ 5000) :=
  ⟨⟨by decide, (C4_theorem allZeroOracle).1 (by decide)⟩,
    ⟨by decide, (C4_theorem allZeroOracle).2 (by decide)⟩⟩

/-- An oracle on which every read fails. -/
def failOracle : ReadOracle := fun _ _ => .error (.readError none)

/-- C9: `read_battery` is total over read outcomes (every exception from the
runtime-window read is caught), and when the first runtime chunk read fails
the call stops reading, computes the record from the empty register map and
returns `None` — the same value the all-zero "no battery present" image
produces, so a total read failure is indistinguishable from an absent
battery at this interface. -/
theorem C9_theorem (oracle : ReadOracle) (e : TransportError)
    (herr : oracle 0 64 = .error e) :
    (readBattery oracle true).result = none ∧
    (readBattery oracle true).reads = [(0, 64)] ∧
    (readBattery oracle true).result = (readBattery allZeroOracle true).result := by
  have hrt : runtimePhase oracle = ([(0, 64)], emptyRegs) := by
    rw [runtimePhase, herr]
  have hres : (readBattery oracle true).result = none := by
    simp [readBattery, hrt]
    exact batteryBankFromRegisters_none _ _ (by simp [emptyRegs])
  refine ⟨hres, ?_, ?_⟩
  · simp [readBattery, hrt, emptyRegs]
  · rw [hres]
    decide

/-- Witness for C9: the always-failing oracle satisfies the hypothesis and
yields `None` with a single issued request. -/
theorem C9_theorem_witness :
    failOracle 0 64 = .error (.readError none) ∧
    (readBattery failOracle true).result = none ∧
    (readBattery failOracle true).reads = [(0, 64)] :=
  ⟨rfl, (C9_theorem failOracle (.readError none) rfl).1,
    (C9_theorem failOracle (.readError none) rfl).2.1⟩

/-- `INPUT_REGISTER_GROUPS` of `_modbus_base`: group name to
`(start, count)` window. -/
def INPUT_REGISTER_GROUPS : List (String × Nat × Nat) :=
  [("power_energy", (0, 32)), ("status_energy", (32, 32)), ("temperatures", (64, 16)),
    ("bms_data", (80, 33)), ("extended_data", (113, 18)), ("output_power", (170, 2))]

/-- The group selection of `_read_register_groups`: the named groups, in
order, skipping unknown names. -/
def groupWindows (names : List String) : List (Nat × Nat) :=
  names.filterMap fun n => INPUT_REGISTER_GROUPS.lookup n

/-- The read loop of `_read_register_groups` restricted to its register
I/O: reads each group window in order via `_read_input_registers`, merging
the values into one address-to-value map; the first failing group aborts
the whole call with a wrapping `TransportReadError` (its chained cause, a
transport error rather than a client exception, is not tracked here). -/
def readGroupsAux (oracle : ReadOracle) :
    List (Nat × Nat) → RawRegs → Except TransportError RawRegs
  | [], acc => .ok acc
  | w :: rest, acc =>
    match oracle w.1 w.2 with
    | .error _ => .error (.readError none)
    | .ok vs => readGroupsAux oracle rest (updateRegs acc (registersFromValues w.1 vs))

/-- `BaseModbusTransport._read_register_groups` on a list of group names. -/
def readRegisterGroups (oracle : ReadOracle) (names : List String) :
    Except TransportError RawRegs :=
  readGroupsAux oracle (groupWindows names) emptyRegs

/-- Decoded energy record at the granularity the claim needs: one field
decoded from the primary (`power_energy` + `status_energy`) windows and one
BMS-derived field decoded from the `bms_data` window. -/
structure InverterEnergyData where
  primaryField : Option Nat
  bmsField : Option Nat
deriving DecidableEq

/-- Modelled from the spec: `InverterEnergyData.from_modbus_registers` lives
in `pylxpweb.transports.data`, a module absent from the sources.  Per the
spec the decoder is total: each field is looked up at its mapped address and
an absent register yields `none`; the concrete per-family addresses live in
the absent `register_maps` module, so the decoder is parameterized by a
primary-field address (inside the 0-63 primary windows) and a BMS-field
address (inside the 80-112 BMS window). -/
def energyFromRegisters (primAddr bmsAddr : Nat) (regs : RawRegs) : InverterEnergyData :=
  { primaryField := regs primAddr, bmsField := regs bmsAddr }

/-- `BaseModbusTransport.read_energy`: reads the primary groups
`power_energy` and `status_energy` (a failure propagates), then tries the
supplementary `bms_data` group, swallowing its `TransportReadError` or
`TransportTimeoutError` and continuing with the primary registers alone,
and decodes the merged map. -/
def readEnergy (oracle : ReadOracle) (primAddr bmsAddr : Nat) :
    Except TransportError InverterEnergyData :=
  match readRegisterGroups oracle ["power_energy", "status_energy"] with
  | .error e => .error e
  | .ok primary =>
    let regs :=
      match readRegisterGroups oracle ["bms_data"] with
      | .ok bms => updateRegs primary bms
      | .error _ => primary
    .ok (energyFromRegisters primAddr bmsAddr regs)

theorem registersFromValues_none (start : Nat) (values : List Nat) (a : Nat)
    (h : start + values.length ≤ a) : registersFromValues start values a = none := by
  simp only [registersFromValues, ite_eq_right_iff]
  intro hc
  omega

/-- C5: if the primary `power_energy` and `status_energy` reads succeed and
the supplementary `bms_data` read fails, `read_energy` still returns a
record decoded from the primary registers, with every BMS-derived field
`none`; and a failure of a primary group still fails the whole read. -/
theorem C5_theorem (oracle : ReadOracle) (primAddr bmsAddr : Nat)
    (hbms1 : 80 ≤ bmsAddr)
    (hlen : ∀ s c vs, oracle s c = .ok vs → vs.length = c) :
    (∀ v1 v2 e, oracle 0 32 = .ok v1 → oracle 32 32 = .ok v2 →
      oracle 80 33 = .error e →
      readEnergy oracle primAddr bmsAddr =
        .ok { primaryField :=
                (updateRegs (updateRegs emptyRegs (registersFromValues 0 v1))
                  (registersFromValues 32 v2)) primAddr
              bmsField := none }) ∧
    (∀ e, oracle 0 32 = .error e →
      readEnergy oracle primAddr bmsAddr = .error (.readError none)) := by
  have hwin : groupWindows ["power_energy", "status_energy"] = [(0, 32), (32, 32)] := by
    rfl
  have hwin2 : groupWindows ["bms_data"] = [(80, 33)] := by
    rfl
  constructor
  · intro v1 v2 e h1 h2 hbe
    have hv1 : v1.length = 32 := hlen 0 32 v1 h1
    have hv2 : v2.length = 32 := hlen 32 32 v2 h2
    rw [readEnergy, readRegisterGroups, hwin, readRegisterGroups, hwin2]
    simp only [readGroupsAux, h1, h2, hbe]
    simp only [Except.ok.injEq]
    rw [energyFromRegisters]
    have hnone :
        (updateRegs (updateRegs emptyRegs (registersFromValues 0 v1))
          (registersFromValues 32 v2)) bmsAddr = none := by
      rw [updateRegs, updateRegs]
      rw [registersFromValues_none 32 v2 bmsAddr (by omega),
        registersFromValues_none 0 v1 bmsAddr (by omega)]
      rfl
    rw [hnone]
  · intro e h1
    rw [readEnergy, readRegisterGroups, hwin]
    simp only [readGroupsAux, h1]

/-- Oracle for the C5 witness: primary group reads succeed with zeroed
registers of the requested length and the BMS group read times out. -/
def c5Oracle : ReadOracle := fun addr count =>
  if addr = 80 then .error (.timeoutError none)
  else .ok (List.replicate count 0)

/-- Witness for C5: on `c5Oracle` the hypotheses hold and `read_energy`
returns a record whose BMS field is `none` and whose primary field is the
zero read at address 1; on `failOracle` the primary failure propagates. -/
theorem C5_theorem_witness :
    (80 ≤ 80) ∧
    (∀ s c vs, c5Oracle s c = Except.ok vs → vs.length = c) ∧
    readEnergy c5Oracle 1 80 =
      .ok { primaryField := some 0, bmsField := none } ∧
    (∀ s c vs, failOracle s c = Except.ok vs → vs.length = c) ∧
    readEnergy failOracle 1 80 = .error (.readError none) := by
  have hlen1 : ∀ s c vs, c5Oracle s c = Except.ok vs → vs.length = c := by
    intro s c vs h
    rw [c5Oracle] at h
    by_cases hs : s = 80
    · rw [if_pos hs] at h
      exact absurd h (by simp)
    · rw [if_neg hs] at h
      cases h
      exact List.length_replicate c 0
  have hlen2 : ∀ s c vs, failOracle s c = Except.ok vs → vs.length = c := by
    intro s c vs h
    exact absurd h (by simp [failOracle])
  refine ⟨le_rfl, hlen1, ?_, hlen2, ?_⟩
  · have h := ((C5_theorem c5Oracle 1 80 le_rfl hlen1).1
      (List.replicate 32 0) (List.replicate 32 0) (.timeoutError none) rfl rfl rfl)
    rw [h]
    rfl
  · exact (C5_theorem failOracle 1 80 le_rfl hlen2).2 (.readError none) rfl

/-- The two Modbus register spaces: input registers (FC4, read via
`_read_input_registers`) and holding registers (FC3, read via
`_read_holding_registers`). -/
inductive RegisterSpace where
  | input
  | holding
deriving DecidableEq

/-- One identity read: the register space it targets and its window. -/
structure IdentityRead where
  space : RegisterSpace
  start : Nat
  count : Nat
deriving DecidableEq

/-- Modelled from the spec: the bodies of `read_serial_number_async`,
`read_firmware_version_async` and `read_device_type_async` live in
`pylxpweb.transports._register_readers`, a module absent from the sources.
The register space of each read, however, is fixed by the reader
`_modbus_base` passes in: `read_serial_number` hands over
`self._read_input_registers` (FC4), while `read_firmware_version` and
`read_device_type` hand over `self._read_holding_registers` (FC3); the
windows come from the same file's docstrings — serial number from input
registers 115-119 (5 words, a 10-character serial), firmware code from
holding registers 7-10, device type from holding register 19. -/
def serialNumberRead : IdentityRead := ⟨.input, 115, 5⟩

/-- Firmware-code identity read (see `serialNumberRead`). -/
def firmwareVersionRead : IdentityRead := ⟨.holding, 7, 4⟩

/-- Device-type identity read (see `serialNumberRead`). -/
def deviceTypeRead : IdentityRead := ⟨.holding, 19, 1⟩

/-- Modelled from the spec: each identity register word packs two ASCII
bytes (the spec calls the packing little-endian: low byte first). -/
def decodeAsciiWords (ws : List Nat) : List Nat :=
  ws.flatMap fun w => [w % 256, w / 256]

/-- C2 (counterexample): the claim places all three identity reads in the
holding-register space (FC3) and gives the serial a 4-word window 115-118;
on the code, `read_serial_number` passes the input-register reader (FC4)
and its window is the 5 words 115-119. -/
theorem C2_counterexample :
    serialNumberRead.space = RegisterSpace.input ∧
    RegisterSpace.input ≠ RegisterSpace.holding ∧
    serialNumberRead.count ≠ 4 := by
  refine ⟨rfl, ?_, ?_⟩ <;> decide

/-- C2 (amended): the device-type code is read from holding register 19
(FC3) and the firmware code from the 4-word holding window 7-10 (FC3), but
the serial number is read from the 5-word input-register window 115-119
(FC4); each word decodes to two ASCII bytes, so the serial has 10
characters. -/
theorem C2_theorem :
    deviceTypeRead.space = RegisterSpace.holding ∧
    deviceTypeRead.start = 19 ∧ deviceTypeRead.count = 1 ∧
    firmwareVersionRead.space = RegisterSpace.holding ∧
    List.range' firmwareVersionRead.start firmwareVersionRead.count = [7, 8, 9, 10] ∧
    serialNumberRead.space = RegisterSpace.input ∧
    List.range' serialNumberRead.start serialNumberRead.count =
      [115, 116, 117, 118, 119] ∧
    (∀ ws, (decodeAsciiWords ws).length = 2 * ws.length) ∧
    (decodeAsciiWords (List.replicate serialNumberRead.count 0)).length = 10 := by
  refine ⟨rfl, rfl, rfl, rfl, by decide, rfl, by decide, ?_, by decide⟩
  intro ws
  induction ws with
  | nil => rfl
  | cons w t ih =>
    simp only [decodeAsciiWords, List.flatMap_cons, List.length_append,
      List.length_cons, List.length_nil] at ih ⊢
    omega

/-- An IPv4 address `a.b.c.d` as a 32-bit number. -/
def ipOf (a b c d : Nat) : Nat := ((a * 256 + b) * 256 + c) * 256 + d

/-- Network address of the CIDR block `ip/p`. -/
def networkAddress (ip p : Nat) : Nat := ip / 2 ^ (32 - p) * 2 ^ (32 - p)

/-- Broadcast address of the CIDR block `ip/p`. -/
def broadcastAddress (ip p : Nat) : Nat := networkAddress ip p + (2 ^ (32 - p) - 1)

/-- Modelled from the spec: `parse_ip_range` of `pylxpweb.scanner.utils` is
absent from the sources; per the spec (and the in-repo scanner tests), a
CIDR block yields the addresses strictly between its network address and
its broadcast address. -/
def cidrHosts (ip p : Nat) : List Nat :=
  List.range' (networkAddress ip p + 1) (2 ^ (32 - p) - 2)

/-- Whether an address lies in RFC1918 or CGN 100.64/10 space. -/
def isPrivateIPv4 (ip : Nat) : Bool :=
  (decide (ipOf 10 0 0 0 ≤ ip) && decide (ip ≤ ipOf 10 255 255 255)) ||
  (decide (ipOf 172 16 0 0 ≤ ip) && decide (ip ≤ ipOf 172 31 255 255)) ||
  (decide (ipOf 192 168 0 0 ≤ ip) && decide (ip ≤ ipOf 192 168 255 255)) ||
  (decide (ipOf 100 64 0 0 ≤ ip) && decide (ip ≤ ipOf 100 127 255 255))

/-- Modelled from the spec: the CIDR branch of `parse_ip_range` — only
private ranges (RFC1918 plus CGN 100.64/10) are accepted, totals over the
4094-host safety cap are rejected, and the host list excludes the network
and broadcast addresses. -/
def parseCidr (ip p : Nat) : Except String (List Nat) :=
  if isPrivateIPv4 ip = false then .error "only private IP ranges are allowed"
  else if 4094 < 2 ^ (32 - p) - 2 then .error "subnet exceeds max host cap"
  else .ok (cidrHosts ip p)

set_option maxRecDepth 4000 in
/-- C8: parsing `192.168.1.0/24` yields exactly 254 hosts, `192.168.1.1`
through `192.168.1.254` — the network `.0` and broadcast `.255` excluded —
and for every CIDR input the network and broadcast addresses never occur in
the host list. -/
theorem C8_theorem :
    parseCidr (ipOf 192 168 1 0) 24 = .ok (cidrHosts (ipOf 192 168 1 0) 24) ∧
    (cidrHosts (ipOf 192 168 1 0) 24).length = 254 ∧
    (cidrHosts (ipOf 192 168 1 0) 24).head? = some (ipOf 192 168 1 1) ∧
    (cidrHosts (ipOf 192 168 1 0) 24).getLast? = some (ipOf 192 168 1 254) ∧
    ∀ ip p, (cidrHosts ip p).count (networkAddress ip p) = 0 ∧
      (cidrHosts ip p).count (broadcastAddress ip p) = 0 := by
  refine ⟨rfl, by decide, by decide, by decide, ?_⟩
  intro ip p
  have hb : 0 < 2 ^ (32 - p) := Nat.pos_pow_of_pos _ (by omega)
  constructor
  · rw [List.count_eq_zero]
    intro hmem
    rw [cidrHosts, List.mem_range'_1] at hmem
    omega
  · rw [List.count_eq_zero]
    intro hmem
    rw [cidrHosts, List.mem_range'_1, broadcastAddress] at hmem
    omega

end Pylxpweb
